import Mathlib

/-!
Verification development for the `todoapi` service.

The embedding covers:
* the token validator `auth.Protect` (package `auth`): JWT parsing is the
  external `golang-jwt` library, modelled here as an idealized executable
  parser over a three-segment dot-separated compact form; the key function
  supplied by the repository's code (HMAC-family allow-list, hard-coded
  placeholder key) is translated literally;
* the HMAC primitive of the crypto library, modelled as an ideal
  (collision-free) MAC: the tag determines the algorithm, key and message;
* the handler `todo.TodoHandler.NewTask` (package `todo`), with gin's
  `ShouldBindJSON` modelled as decoding into the single recognized field
  `text` (json tag of `Todo.Title`), and gorm's `db.Create` modelled as an
  append to an in-memory table with an auto-incremented surrogate id and a
  failure flag for the closed-connection case;
* the process lifecycle of `main` (signal wait, bounded graceful shutdown,
  logging, normal exit), as a small labelled transition system.

Strings are modelled as `List Char` so that the prefix/append reasoning of
the handler's header handling stays elementary.
-/

/-- Strings of the Go program, modelled as lists of characters. -/
abbrev Str := List Char

/-- True when the character `'.'` does not occur: such a segment survives
splitting a compact token on dots. -/
def noDot (s : Str) : Prop := '.' ∉ s

instance (s : Str) : Decidable (noDot s) := by
  unfold noDot; infer_instance

/-- Signing algorithms registered with the `golang-jwt` library that this
service can meet: the HMAC family plus representative non-HMAC methods. -/
inductive Alg where
  | HS256 | HS384 | HS512 | RS256 | ES256 | PS256 | noneAlg
  deriving DecidableEq, Repr

/-- Whether the method is `*jwt.SigningMethodHMAC`, the type asserted by the
key function in `auth.Protect`. -/
def isHMAC : Alg → Bool
  | .HS256 => true
  | .HS384 => true
  | .HS512 => true
  | _ => false

/-- The `alg` header value of each method. -/
def algText : Alg → Str
  | .HS256 => "HS256".toList
  | .HS384 => "HS384".toList
  | .HS512 => "HS512".toList
  | .RS256 => "RS256".toList
  | .ES256 => "ES256".toList
  | .PS256 => "PS256".toList
  | .noneAlg => "none".toList

/-- Lookup of a declared `alg` header value among the registered methods;
an unknown value makes the library's parse fail. -/
def algFromText (s : Str) : Option Alg :=
  if s = algText .HS256 then some .HS256
  else if s = algText .HS384 then some .HS384
  else if s = algText .HS512 then some .HS512
  else if s = algText .RS256 then some .RS256
  else if s = algText .ES256 then some .ES256
  else if s = algText .PS256 then some .PS256
  else if s = algText .noneAlg then some .noneAlg
  else none

/-- Separator used inside the ideal MAC tag. -/
def macSep : Str := "|".toList

/-- Ideal MAC: the tag of a message under a key records the algorithm, the
key and the message, so distinct keys give distinct tags. This models the
HMAC implementation of the crypto library as a perfect MAC. -/
def mac (a : Alg) (key msg : Str) : Str :=
  algText a ++ macSep ++ key ++ macSep ++ msg

/-- The hard-coded placeholder secret returned by the key function of
`auth.Protect`. -/
def placeholderKey : Str := "==signature==".toList

/-- Splits a character list on `'.'`; always returns at least one segment,
and a compact token has exactly three. -/
def splitOnDot : Str → List Str
  | [] => [[]]
  | c :: rest =>
    match splitOnDot rest with
    | [] => [[c]]
    | s :: ss => if c = '.' then [] :: s :: ss else (c :: s) :: ss

/-- Result of the structural stage of `jwt.Parse`: either the string is not
a well-formed compact token (wrong segment count or unknown algorithm), or
it decomposes into a declared algorithm, a payload segment and a signature
segment. -/
inductive TokenInput where
  | malformed
  | token (a : Alg) (payload : Str) (sig : Str)
  deriving DecidableEq, Repr

/-- Structural parse of a compact token string: three dot-separated
segments whose first names a registered algorithm. -/
def parseToken (s : Str) : TokenInput :=
  match splitOnDot s with
  | [h, p, g] =>
    match algFromText h with
    | some a => .token a p g
    | none => .malformed
  | _ => .malformed

/-- Errors of `auth.Protect` (the Go function returns a non-nil `error`;
the cases are not distinguished by the caller). -/
inductive AuthError where
  | malformedToken
  | unexpectedSigningMethod (a : Alg)
  | invalidSignature
  deriving DecidableEq, Repr

/-- Core of `auth.Protect` on a structurally parsed token, translated from
the key function in the source: reject unless the method is
`*jwt.SigningMethodHMAC`, then verify the signature with the literal key
`"==signature=="`. Claim checks of the library (expiry and the like) are
out of scope per the specification: the payload is opaque. -/
def ProtectCore : TokenInput → Option AuthError
  | .malformed => some .malformedToken
  | .token a payload sig =>
    if isHMAC a then
      if sig = mac a placeholderKey payload then none
      else some .invalidSignature
    else some (.unexpectedSigningMethod a)

/-- The function `auth.Protect(tokenString string) error`: `none` models a
nil error (validation success). -/
def Protect (tokenString : Str) : Option AuthError :=
  ProtectCore (parseToken tokenString)

/-- The dot separating the segments of a compact token. -/
def dotSep : Str := ".".toList

/-- A compact token over `payload` signed with `key` by algorithm `a`:
header segment, payload segment, and the MAC of the payload under the key.
This is what issuance with secret `key` produces. -/
def signTokenStr (a : Alg) (key payload : Str) : Str :=
  algText a ++ dotSep ++ payload ++ dotSep ++ mac a key payload

/-- The literal prefix stripped from the `Authorization` header value. -/
def bearerTag : Str := "Bearer ".toList

/-- Go's `strings.TrimPrefix(s, pre)`: drop `pre` when it is a prefix of
`s`, otherwise return `s` unchanged. -/
def trimPfx (s pre : Str) : Str :=
  if pre.isPrefixOf s then s.drop pre.length else s

/-- JSON values as far as the binder distinguishes them: a string, or any
other value (number, object, array, boolean, null), whose binding into the
`string`-typed `Title` field fails. -/
inductive JVal where
  | str (s : Str)
  | other
  deriving DecidableEq, Repr

/-- Request bodies as seen by `c.ShouldBindJSON(&todo)`: either the
document is syntactically invalid JSON (carrying the parser's error
message), or it is a JSON object given as a field list. Valid non-object
documents also fail binding; they are not needed by any claim and are left
out of the model. -/
inductive Body where
  | malformed (errMsg : Str)
  | obj (fields : List (Str × JVal))
  deriving DecidableEq, Repr

/-- Last-wins key lookup, matching `encoding/json`'s treatment of
duplicate keys in an object. -/
def lookupField (key : Str) : List (Str × JVal) → Option JVal
  | [] => none
  | kv :: rest =>
    match lookupField key rest with
    | some v => some v
    | none => if kv.1 = key then some kv.2 else none

/-- The json tag of `Todo.Title`, the only recognized field. -/
def textKey : Str := "text".toList

/-- Error message when the `text` field holds a non-string value. -/
def typeErrText : Str :=
  "json: cannot unmarshal value into Go struct field Todo.text of type string".toList

/-- Binding a body into the `Todo` struct: an invalid document yields the
parser's error; an object binds its `text` value when it is a string,
fails on a non-string `text`, and leaves `Title` at the zero value (empty
string) when `text` is absent; unrecognized fields are ignored. -/
def bindTodo : Body → Except Str Str
  | .malformed errMsg => .error errMsg
  | .obj fields =>
    match lookupField textKey fields with
    | some (.str s) => .ok s
    | some .other => .error typeErrText
    | none => .ok []

/-- A persisted row of the `todos` table: the surrogate id assigned by the
store and the bound title. Timestamp columns are managed wholly by the
persistence collaborator and are out of scope. -/
structure TodoRow where
  id : Nat
  title : Str
  deriving DecidableEq, Repr

/-- The persistence collaborator: the next id the store will assign, the
rows, and whether the connection is failing (`db.Create` returns an error
exactly then, modelling the closed-connection case of the tests). -/
structure DB where
  nextID : Nat
  rows : List TodoRow
  failing : Bool
  deriving DecidableEq, Repr

/-- Error message surfaced on a persistence failure. -/
def dbErrText : Str := "sql: database is closed".toList

/-- An inbound POST /todos request: the `Authorization` header value (the
empty string when the header is absent, as `Header.Get` returns) and the
body. -/
structure Request where
  authorization : Str
  body : Body
  deriving DecidableEq, Repr

/-- Response bodies the handler writes. -/
inductive RespBody where
  | empty
  | errorObj (msg : Str)
  | idObj (id : Nat)
  deriving DecidableEq, Repr

/-- An HTTP response: status code and JSON body. -/
structure Response where
  status : Nat
  body : RespBody
  deriving DecidableEq, Repr

/-- The token string the handler passes to the validator: the header value
with the literal `"Bearer "` prefix stripped by `strings.TrimPrefix`. -/
def tokenOf (req : Request) : Str :=
  trimPfx req.authorization bearerTag

/-- The handler `TodoHandler.NewTask`, translated clause by clause:
authorization gate (401, empty body, request aborted), JSON binding (400
with the error message), persistence (500 with the error message), success
(201 with the new id under the key `ID`). The returned `DB` is the store
after the request. -/
def NewTask (req : Request) (db : DB) : Response × DB :=
  match Protect (tokenOf req) with
  | some _ => (⟨401, .empty⟩, db)
  | none =>
    match bindTodo req.body with
    | .error msg => (⟨400, .errorObj msg⟩, db)
    | .ok title =>
      if db.failing then (⟨500, .errorObj dbErrText⟩, db)
      else
        (⟨201, .idObj db.nextID⟩,
         ⟨db.nextID + 1, db.rows ++ [⟨db.nextID, title⟩], false⟩)

/-- Phases of the process lifecycle in `main`. -/
inductive Phase where
  | serving
  | shuttingDown
  | exited
  deriving DecidableEq, Repr

/-- Events the lifecycle reacts to: a termination signal (SIGINT or
SIGTERM), and completion of the graceful shutdown, which either finished
in time or hit the deadline. -/
inductive LifeEvent where
  | termSignal
  | shutdownDone (timedOut : Bool)
  deriving DecidableEq, Repr

/-- Ceiling, in seconds, of the graceful-shutdown context in `main`. -/
def shutdownTimeoutSeconds : Nat := 5

/-- Log line printed on the first termination signal. -/
def gracefulLog : Str :=
  "Shutting down gracefully, press Ctrl+C again to force".toList

/-- Log line printed when the shutdown deadline elapses first. -/
def forcedShutdownLog : Str :=
  "Server forced to shutdown: context deadline exceeded".toList

/-- Log line printed just before `main` returns. -/
def serverExitingLog : Str := "Server exiting".toList

/-- The tail of `main` after the shutdown call: log the failure when
`s.Shutdown` returned an error, log the exit line, and return from `main`,
which terminates the process with exit code 0 in every case. -/
def shutdownSequence (timedOut : Bool) : List Str × Nat :=
  ((if timedOut then [forcedShutdownLog] else []) ++ [serverExitingLog], 0)

/-- One transition of the lifecycle: the first signal moves serving to
shutting down (with the advisory log line); shutdown completion or timeout
moves shutting down to exited; everything else stutters. -/
def lifecycleStep : Phase → LifeEvent → Phase × List Str
  | .serving, .termSignal => (.shuttingDown, [gracefulLog])
  | .serving, .shutdownDone _ => (.serving, [])
  | .shuttingDown, .termSignal => (.shuttingDown, [])
  | .shuttingDown, .shutdownDone t => (.exited, (shutdownSequence t).1)
  | .exited, _ => (.exited, [])

/-! ### Lemmas about token parsing and the ideal MAC -/

theorem splitOnDot_cons_eq (c : Char) (x : Str) :
    splitOnDot (c :: x) =
      match splitOnDot x with
      | [] => [[c]]
      | s :: ss => if c = '.' then [] :: s :: ss else (c :: s) :: ss := by
  simp [splitOnDot]

theorem splitOnDot_ne_nil (s : Str) : splitOnDot s ≠ [] := by
  induction s with
  | nil => simp [splitOnDot]
  | cons c rest ih =>
    rw [splitOnDot_cons_eq]
    cases h : splitOnDot rest with
    | nil => simp
    | cons a as =>
      by_cases hc : c = '.' <;> simp [hc]

theorem splitOnDot_append_noDot (a : Str) (ha : noDot a) (x : Str) (s : Str)
    (ss : List Str) (hx : splitOnDot x = s :: ss) :
    splitOnDot (a ++ x) = (a ++ s) :: ss := by
  induction a with
  | nil => simpa using hx
  | cons c rest ih =>
    have hc : c ≠ '.' := by
      intro h
      exact ha (by simp [h])
    have hrest : noDot rest := by
      intro h
      exact ha (by simp [h])
    simp only [List.cons_append]
    rw [splitOnDot_cons_eq, ih hrest]
    simp [hc]

theorem splitOnDot_noDot (a : Str) (ha : noDot a) : splitOnDot a = [a] := by
  have := splitOnDot_append_noDot a ha [] [] [] (by simp [splitOnDot])
  simpa using this

theorem splitOnDot_dot_cons (x : Str) : splitOnDot ('.' :: x) = [] :: splitOnDot x := by
  rw [splitOnDot_cons_eq]
  cases h : splitOnDot x with
  | nil => exact absurd h (splitOnDot_ne_nil x)
  | cons s ss => simp

theorem splitOnDot_three (a b c : Str) (ha : noDot a) (hb : noDot b) (hc : noDot c) :
    splitOnDot (a ++ dotSep ++ b ++ dotSep ++ c) = [a, b, c] := by
  have h1 : splitOnDot c = [c] := splitOnDot_noDot c hc
  have h2 : splitOnDot (dotSep ++ c) = [] :: [c] := by
    simpa [dotSep] using splitOnDot_dot_cons c ▸ congrArg ([] :: ·) h1
  have h3 : splitOnDot (b ++ (dotSep ++ c)) = (b ++ []) :: [c] :=
    splitOnDot_append_noDot b hb _ [] [c] h2
  have h4 : splitOnDot (dotSep ++ (b ++ (dotSep ++ c))) = [] :: (b ++ []) :: [c] := by
    have := splitOnDot_dot_cons (b ++ (dotSep ++ c))
    rw [h3] at this
    simpa [dotSep] using this
  have h5 : splitOnDot (a ++ (dotSep ++ (b ++ (dotSep ++ c)))) =
      (a ++ []) :: (b ++ []) :: [c] :=
    splitOnDot_append_noDot a ha _ [] ((b ++ []) :: [c]) h4
  simpa using h5

theorem noDot_algText (a : Alg) : noDot (algText a) := by
  cases a <;> decide

theorem noDot_mac (a : Alg) (key msg : Str) (hk : noDot key) (hm : noDot msg) :
    noDot (mac a key msg) := by
  have hs : noDot macSep := by decide
  have ht := noDot_algText a
  simp only [noDot, mac, List.mem_append, not_or] at *
  exact ⟨⟨⟨⟨ht, hs⟩, hk⟩, hs⟩, hm⟩

theorem algFromText_algText (a : Alg) : algFromText (algText a) = some a := by
  cases a <;> decide

theorem parseToken_signTokenStr (a : Alg) (key payload : Str)
    (hk : noDot key) (hp : noDot payload) :
    parseToken (signTokenStr a key payload) = .token a payload (mac a key payload) := by
  unfold parseToken signTokenStr
  rw [splitOnDot_three (algText a) payload (mac a key payload) (noDot_algText a) hp
    (noDot_mac a key payload hk hp)]
  simp [algFromText_algText a]

theorem mac_inj_key (a : Alg) (k1 k2 msg : Str) (h : mac a k1 msg = mac a k2 msg) :
    k1 = k2 := by
  unfold mac at h
  simp only [List.append_assoc] at h
  have h1 : macSep ++ (k1 ++ (macSep ++ msg)) = macSep ++ (k2 ++ (macSep ++ msg)) :=
    List.append_inj_right h rfl
  have h2 : k1 ++ (macSep ++ msg) = k2 ++ (macSep ++ msg) :=
    List.append_inj_right h1 rfl
  have hlen : k1.length = k2.length := by
    have := congrArg List.length h2
    simp at this
    omega
  exact List.append_inj_left h2 hlen

/-! ### Claims about the token validator -/

/-- C1 counterexample: with the configured signing secret `"topsecret"`
(distinct from the placeholder), a token signed with that secret by HS256
is rejected by `Protect`; yet a token signed with the placeholder, which
is a wrong secret from the configuration's point of view, is accepted.
Both halves of the claim fail. -/
theorem C1_counterexample :
    Protect (signTokenStr .HS256 "topsecret".toList "p".toList) ≠ none
    ∧ "topsecret".toList ≠ placeholderKey
    ∧ Protect (signTokenStr .HS256 placeholderKey "p".toList) = none := by
  decide

/-- C1 (amended): a token signed with secret `key` using an HMAC-family
algorithm passes `Protect` exactly when `key` is the hard-coded
placeholder `"==signature=="`; tokens signed with the configured signing
secret therefore succeed only when that secret equals the placeholder. -/
theorem C1_amended (a : Alg) (key payload : Str) (hH : isHMAC a = true)
    (hk : noDot key) (hp : noDot payload) :
    Protect (signTokenStr a key payload) = none ↔ key = placeholderKey := by
  unfold Protect
  rw [parseToken_signTokenStr a key payload hk hp]
  simp only [ProtectCore, hH, if_true]
  constructor
  · intro h
    by_cases hm : mac a key payload = mac a placeholderKey payload
    · exact mac_inj_key a key placeholderKey payload hm
    · simp [hm] at h
  · intro h
    simp [h]

theorem C1_amended_witness :
    isHMAC .HS256 = true ∧ noDot "topsecret".toList ∧ noDot "p".toList ∧
    (Protect (signTokenStr .HS256 "topsecret".toList "p".toList) = none
      ↔ "topsecret".toList = placeholderKey) :=
  ⟨rfl, by decide, by decide,
    C1_amended .HS256 "topsecret".toList "p".toList rfl (by decide) (by decide)⟩

/-- C2: for every input token string, `Protect` succeeds exactly when the
string parses to a token of the HMAC family whose signature is the MAC of
the payload under the fixed placeholder secret `"==signature=="`; the
configured signing secret plays no role in verification. -/
theorem C2_placeholder_verification (s : Str) :
    Protect s = none ↔
      ∃ a payload, isHMAC a = true ∧
        parseToken s = .token a payload (mac a placeholderKey payload) := by
  unfold Protect
  cases hp : parseToken s with
  | malformed =>
    simp only [ProtectCore]
    constructor
    · intro h
      exact absurd h (by simp)
    · rintro ⟨a, payload, _, h⟩
      exact absurd h (by simp)
  | token a payload sig =>
    constructor
    · intro h
      cases hH : isHMAC a with
      | false => simp [ProtectCore, hH] at h
      | true =>
        refine ⟨a, payload, hH, ?_⟩
        by_cases hm : sig = mac a placeholderKey payload
        · rw [hm]
        · simp [ProtectCore, hH, hm] at h
    · rintro ⟨b, q, hH, h⟩
      obtain ⟨hb, hq, hs⟩ : a = b ∧ payload = q ∧ sig = mac b placeholderKey q := by
        cases h
        exact ⟨rfl, rfl, rfl⟩
      subst hb; subst hq; subst hs
      simp [ProtectCore, hH]

/-- C4: every token whose declared algorithm is outside the HMAC family is
rejected with the unexpected-signing-method error, whatever its payload
and signature (even one valid under the placeholder key); and the HMAC
family accepted by the check is exactly the explicit allow-list HS256,
HS384, HS512. -/
theorem C4_hmac_allowlist (a : Alg) (payload sig : Str) (h : isHMAC a = false) :
    ProtectCore (.token a payload sig) = some (.unexpectedSigningMethod a)
    ∧ (∀ b, isHMAC b = true ↔ (b = .HS256 ∨ b = .HS384 ∨ b = .HS512)) := by
  constructor
  · simp [ProtectCore, h]
  · intro b
    cases b <;> simp [isHMAC]

theorem C4_hmac_allowlist_witness :
    isHMAC .RS256 = false ∧
    (ProtectCore (.token .RS256 "p".toList (mac .RS256 placeholderKey "p".toList))
        = some (.unexpectedSigningMethod .RS256)
      ∧ (∀ b, isHMAC b = true ↔ (b = .HS256 ∨ b = .HS384 ∨ b = .HS512))) :=
  ⟨rfl, C4_hmac_allowlist .RS256 "p".toList (mac .RS256 placeholderKey "p".toList) rfl⟩

/-! ### Lemmas about the handler -/

theorem newTask_status401_iff (req : Request) (db : DB) :
    (NewTask req db).1.status = 401 ↔ Protect (tokenOf req) ≠ none := by
  cases hp : Protect (tokenOf req) with
  | some e => simp [NewTask, hp]
  | none =>
    cases hb : bindTodo req.body with
    | error m => simp [NewTask, hp, hb]
    | ok title =>
      by_cases hf : db.failing <;> simp [NewTask, hp, hb, hf]

/-! ### Claims about the handler -/

/-- C3: the authorization gate runs before body parsing. A request whose
token fails validation gets 401 with an empty body even when its body is
syntactically invalid JSON; a request with a valid token and a
syntactically invalid JSON body gets 400 with the (non-empty) parse error
message in the error field. -/
theorem C3_auth_before_parsing (req1 req2 : Request) (db1 db2 : DB) (m : Str)
    (h1 : Protect (tokenOf req1) ≠ none)
    (h2 : Protect (tokenOf req2) = none)
    (hb : req2.body = .malformed m)
    (hm : m ≠ []) :
    (NewTask req1 db1).1 = ⟨401, .empty⟩
    ∧ (NewTask req1 db1).1.status = 401
    ∧ (NewTask req2 db2).1 = ⟨400, .errorObj m⟩
    ∧ m ≠ [] := by
  refine ⟨?_, ?_, ?_, hm⟩
  · cases hp : Protect (tokenOf req1) with
    | some e => simp [NewTask, hp]
    | none => exact absurd hp h1
  · cases hp : Protect (tokenOf req1) with
    | some e => simp [NewTask, hp]
    | none => exact absurd hp h1
  · simp [NewTask, h2, hb, bindTodo]

theorem C3_auth_before_parsing_witness :
    Protect (tokenOf ⟨[], .malformed "x".toList⟩) ≠ none
    ∧ Protect (tokenOf ⟨bearerTag ++ signTokenStr .HS256 placeholderKey "p".toList,
        .malformed "unexpected EOF".toList⟩) = none
    ∧ (⟨bearerTag ++ signTokenStr .HS256 placeholderKey "p".toList,
        .malformed "unexpected EOF".toList⟩ : Request).body
        = .malformed "unexpected EOF".toList
    ∧ "unexpected EOF".toList ≠ []
    ∧ ((NewTask ⟨[], .malformed "x".toList⟩ ⟨1, [], false⟩).1 = ⟨401, .empty⟩
      ∧ (NewTask ⟨[], .malformed "x".toList⟩ ⟨1, [], false⟩).1.status = 401
      ∧ (NewTask ⟨bearerTag ++ signTokenStr .HS256 placeholderKey "p".toList,
          .malformed "unexpected EOF".toList⟩ ⟨1, [], false⟩).1
          = ⟨400, .errorObj "unexpected EOF".toList⟩
      ∧ "unexpected EOF".toList ≠ []) :=
  ⟨by decide, by decide, rfl, by decide,
    C3_auth_before_parsing _ _ _ _ _ (by decide) (by decide) rfl (by decide)⟩

/-- C5: whenever token validation fails, for whatever reason (missing
header, malformed token, bad signature, wrong algorithm family), the
response is 401 with an empty body, and it is literally the same response
whichever reason caused the failure. -/
theorem C5_uniform_unauthorized (req1 req2 : Request) (db1 db2 : DB)
    (h1 : Protect (tokenOf req1) ≠ none)
    (h2 : Protect (tokenOf req2) ≠ none) :
    (NewTask req1 db1).1 = ⟨401, .empty⟩
    ∧ (NewTask req1 db1).1 = (NewTask req2 db2).1 := by
  have e1 : (NewTask req1 db1).1 = ⟨401, .empty⟩ := by
    cases hp : Protect (tokenOf req1) with
    | some e => simp [NewTask, hp]
    | none => exact absurd hp h1
  have e2 : (NewTask req2 db2).1 = ⟨401, .empty⟩ := by
    cases hp : Protect (tokenOf req2) with
    | some e => simp [NewTask, hp]
    | none => exact absurd hp h2
  exact ⟨e1, e1.trans e2.symm⟩

theorem C5_uniform_unauthorized_witness :
    Protect (tokenOf ⟨[], .obj []⟩) ≠ none
    ∧ Protect (tokenOf ⟨bearerTag ++ signTokenStr .RS256 placeholderKey "p".toList,
        .obj [(textKey, .str "x".toList)]⟩) ≠ none
    ∧ ((NewTask ⟨[], .obj []⟩ ⟨1, [], false⟩).1 = ⟨401, .empty⟩
      ∧ (NewTask ⟨[], .obj []⟩ ⟨1, [], false⟩).1
        = (NewTask ⟨bearerTag ++ signTokenStr .RS256 placeholderKey "p".toList,
            .obj [(textKey, .str "x".toList)]⟩ ⟨2, [], false⟩).1) :=
  ⟨by decide, by decide,
    C5_uniform_unauthorized _ _ _ _ (by decide) (by decide)⟩

/-- C6: a request with a valid token and well-formed body binding `text`
to `S` (including the empty string) gets 201 with the newly assigned id
under the key `ID`; that id was borne by no existing row, and the new row
stores exactly `S` as its title. -/
theorem C6_created_with_fresh_id (req : Request) (db : DB) (S : Str)
    (hAuth : Protect (tokenOf req) = none)
    (hBody : req.body = .obj [(textKey, .str S)])
    (hOK : db.failing = false)
    (hFresh : ∀ r ∈ db.rows, r.id < db.nextID) :
    (NewTask req db).1 = ⟨201, .idObj db.nextID⟩
    ∧ (∀ r ∈ db.rows, r.id ≠ db.nextID)
    ∧ (NewTask req db).2.rows = db.rows ++ [⟨db.nextID, S⟩] := by
  have hbind : bindTodo req.body = .ok S := by
    simp [hBody, bindTodo, lookupField]
  refine ⟨?_, ?_, ?_⟩
  · simp [NewTask, hAuth, hbind, hOK]
  · intro r hr
    exact Nat.ne_of_lt (hFresh r hr)
  · simp [NewTask, hAuth, hbind, hOK]

theorem C6_created_with_fresh_id_witness :
    Protect (tokenOf ⟨bearerTag ++ signTokenStr .HS256 placeholderKey "p".toList,
        .obj [(textKey, .str [])]⟩) = none
    ∧ (⟨bearerTag ++ signTokenStr .HS256 placeholderKey "p".toList,
        .obj [(textKey, .str [])]⟩ : Request).body = .obj [(textKey, .str [])]
    ∧ (⟨1, [], false⟩ : DB).failing = false
    ∧ (∀ r ∈ (⟨1, [], false⟩ : DB).rows, r.id < (⟨1, [], false⟩ : DB).nextID)
    ∧ ((NewTask ⟨bearerTag ++ signTokenStr .HS256 placeholderKey "p".toList,
          .obj [(textKey, .str [])]⟩ ⟨1, [], false⟩).1 = ⟨201, .idObj 1⟩
      ∧ (∀ r ∈ (⟨1, [], false⟩ : DB).rows, r.id ≠ 1)
      ∧ (NewTask ⟨bearerTag ++ signTokenStr .HS256 placeholderKey "p".toList,
          .obj [(textKey, .str [])]⟩ ⟨1, [], false⟩).2.rows = [] ++ [⟨1, []⟩]) :=
  ⟨by decide, rfl, rfl, by decide,
    C6_created_with_fresh_id _ _ _ (by decide) rfl rfl (by decide)⟩

/-- C7: the handler extracts the token by stripping the literal prefix
`"Bearer "` from the `Authorization` header, case-sensitively; a header
without that prefix is passed to the validator unchanged, and no error is
raised at extraction — the handler answers 401 precisely when the
validator rejects the (possibly unchanged) string. -/
theorem C7_bearer_stripping (h rest : Str) (db : DB) (b : Body)
    (hnp : bearerTag.isPrefixOf h = false) :
    tokenOf ⟨bearerTag ++ rest, b⟩ = rest
    ∧ tokenOf ⟨h, b⟩ = h
    ∧ ((NewTask ⟨h, b⟩ db).1.status = 401 ↔ Protect h ≠ none)
    ∧ ((NewTask ⟨bearerTag ++ rest, b⟩ db).1.status = 401 ↔ Protect rest ≠ none) := by
  have e1 : tokenOf ⟨bearerTag ++ rest, b⟩ = rest := by
    have hp : bearerTag.isPrefixOf (bearerTag ++ rest) = true := by
      rw [List.isPrefixOf_iff_prefix]
      exact List.prefix_append bearerTag rest
    simp [tokenOf, trimPfx, hp, List.drop_left]
  have e2 : tokenOf ⟨h, b⟩ = h := by
    simp [tokenOf, trimPfx, hnp]
  refine ⟨e1, e2, ?_, ?_⟩
  · rw [newTask_status401_iff, e2]
  · rw [newTask_status401_iff, e1]

theorem C7_bearer_stripping_witness :
    bearerTag.isPrefixOf "tok".toList = false
    ∧ (tokenOf ⟨bearerTag ++ signTokenStr .HS256 placeholderKey "p".toList, .obj []⟩
        = signTokenStr .HS256 placeholderKey "p".toList
      ∧ tokenOf ⟨"tok".toList, .obj []⟩ = "tok".toList
      ∧ ((NewTask ⟨"tok".toList, .obj []⟩ ⟨1, [], false⟩).1.status = 401
          ↔ Protect "tok".toList ≠ none)
      ∧ ((NewTask ⟨bearerTag ++ signTokenStr .HS256 placeholderKey "p".toList,
            .obj []⟩ ⟨1, [], false⟩).1.status = 401
          ↔ Protect (signTokenStr .HS256 placeholderKey "p".toList) ≠ none)) :=
  ⟨by decide,
    C7_bearer_stripping "tok".toList (signTokenStr .HS256 placeholderKey "p".toList)
      ⟨1, [], false⟩ (.obj []) (by decide)⟩

/-- C9: whenever the handler answers 401 or 400, the store is returned
unchanged — the persistence write happens only after the authorization
gate and the JSON binding have both succeeded. -/
theorem C9_no_write_on_4xx (req : Request) (db : DB)
    (h : (NewTask req db).1.status = 401 ∨ (NewTask req db).1.status = 400) :
    (NewTask req db).2 = db := by
  cases hp : Protect (tokenOf req) with
  | some e => simp [NewTask, hp]
  | none =>
    cases hb : bindTodo req.body with
    | error m => simp [NewTask, hp, hb]
    | ok title =>
      by_cases hf : db.failing
      · simp [NewTask, hp, hb, hf]
      · exfalso
        rcases h with h | h <;> simp [NewTask, hp, hb, hf] at h

theorem C9_no_write_on_4xx_witness :
    ((NewTask ⟨[], .malformed "x".toList⟩ ⟨7, [⟨1, "a".toList⟩], false⟩).1.status = 401
      ∨ (NewTask ⟨[], .malformed "x".toList⟩ ⟨7, [⟨1, "a".toList⟩], false⟩).1.status = 400)
    ∧ (NewTask ⟨[], .malformed "x".toList⟩ ⟨7, [⟨1, "a".toList⟩], false⟩).2
        = ⟨7, [⟨1, "a".toList⟩], false⟩ :=
  ⟨Or.inl (by decide),
    C9_no_write_on_4xx _ _ (Or.inl (by decide))⟩

/-- C10: a syntactically valid JSON object without a `text` field — empty,
or holding only unrecognized fields — is not rejected: with a valid token
the handler answers 201 and stores a row whose title is the empty string;
no field other than `text` influences the stored record. -/
theorem C10_missing_text_defaults_empty (req : Request) (db : DB)
    (fields : List (Str × JVal))
    (hAuth : Protect (tokenOf req) = none)
    (hBody : req.body = .obj fields)
    (hNo : lookupField textKey fields = none)
    (hOK : db.failing = false) :
    (NewTask req db).1 = ⟨201, .idObj db.nextID⟩
    ∧ (NewTask req db).2.rows = db.rows ++ [⟨db.nextID, []⟩] := by
  have hbind : bindTodo req.body = .ok [] := by
    simp [hBody, bindTodo, hNo]
  constructor <;> simp [NewTask, hAuth, hbind, hOK]

theorem C10_missing_text_defaults_empty_witness :
    Protect (tokenOf ⟨bearerTag ++ signTokenStr .HS256 placeholderKey "p".toList,
        .obj [("done".toList, JVal.other)]⟩) = none
    ∧ (⟨bearerTag ++ signTokenStr .HS256 placeholderKey "p".toList,
        .obj [("done".toList, JVal.other)]⟩ : Request).body
        = .obj [("done".toList, JVal.other)]
    ∧ lookupField textKey [("done".toList, JVal.other)] = none
    ∧ (⟨1, [], false⟩ : DB).failing = false
    ∧ ((NewTask ⟨bearerTag ++ signTokenStr .HS256 placeholderKey "p".toList,
          .obj [("done".toList, JVal.other)]⟩ ⟨1, [], false⟩).1 = ⟨201, .idObj 1⟩
      ∧ (NewTask ⟨bearerTag ++ signTokenStr .HS256 placeholderKey "p".toList,
          .obj [("done".toList, JVal.other)]⟩ ⟨1, [], false⟩).2.rows
          = [] ++ [⟨1, []⟩]) :=
  ⟨by decide, rfl, by decide, rfl,
    C10_missing_text_defaults_empty _ _ _ (by decide) rfl (by decide) rfl⟩

/-- C8: after the first termination signal the lifecycle enters shutting
down, bounded by the 5-second ceiling; completion and timeout both lead to
the exited phase, a timeout is only logged (the forced-shutdown line), the
process exit code is 0 in every case, and no transition leads back to
serving. -/
theorem C8_graceful_shutdown :
    shutdownTimeoutSeconds = 5
    ∧ lifecycleStep .serving .termSignal = (.shuttingDown, [gracefulLog])
    ∧ (∀ t, lifecycleStep .shuttingDown (.shutdownDone t)
        = (.exited, (shutdownSequence t).1))
    ∧ shutdownSequence true = ([forcedShutdownLog, serverExitingLog], 0)
    ∧ (∀ t, (shutdownSequence t).2 = 0)
    ∧ (∀ p e, (lifecycleStep p e).1 = .serving
        ↔ (p = .serving ∧ e ≠ .termSignal)) := by
  refine ⟨rfl, rfl, ?_, by decide, ?_, ?_⟩
  · intro t
    rfl
  · intro t
    rfl
  · intro p e
    cases p <;> cases e <;> simp [lifecycleStep]
